/-
  Verification of the ProtoContext generator (WordPress plugin class
  `ProtoContext_Generator`): a shallow embedding of the context.txt
  compiler — text normalisation, section segmentation, truncation,
  header/metadata assembly, sitemap discovery, product blocks and the
  page/category/index document builders — together with theorems about
  the documented properties of these functions.

  Modelling conventions:
  * PHP strings are modelled as `List Char` (the multibyte/`mb_*` view);
    raw byte strings (PHP `strlen`/`substr`) are modelled as `List Nat`
    of UTF-8 bytes via `phpBytes`.
  * WordPress / PHP builtins (database queries, `strip_shortcodes`,
    `wp_strip_all_tags`, `html_entity_decode`, `apply_filters`,
    `json_decode`, taxonomy lookups, WooCommerce product objects) are
    external collaborators: they are supplied by an explicit environment
    (`SiteEnv`) as data or functions, exactly at the interface the
    generator consumes.
  * PHP truthiness (`if ($s)`, `?:`, `!empty`, `array_filter`) for
    strings is `phpTruthy`: false exactly for `""` and `"0"`.
-/
import Mathlib

set_option maxRecDepth 100000

/-- PHP truthiness of a string: `""` and `"0"` are falsy. -/
def phpTruthy (s : List Char) : Bool :=
  !(s == [] || s == ['0'])

/-- PHP `implode($sep, $parts)`. -/
def implode (sep : List Char) (parts : List (List Char)) : List Char :=
  List.intercalate sep parts

/-- PHP `explode($sep, $s)` for a single-character separator. -/
def explode (s : Char) (l : List Char) : List (List Char) :=
  l.splitOn s

/-- The default character class stripped by PHP `trim`. -/
def isTrimChar (c : Char) : Bool :=
  c = ' ' || c = '\t' || c = '\n' || c = '\r' || c = '\x00' || c = '\x0b'

/-- PHP `trim($s)` with the default character list. -/
def phpTrim (l : List Char) : List Char :=
  ((l.dropWhile isTrimChar).reverse.dropWhile isTrimChar).reverse

/-- Index of the last occurrence of `c` in `l` (PHP `mb_strrpos`;
`none` models the PHP return value `false`). -/
def lastIdxOf (c : Char) : List Char → Option Nat
  | [] => none
  | a :: as =>
    match lastIdxOf c as with
    | some i => some (i + 1)
    | none => if a = c then some 0 else none

/-- PHP `ucfirst` (ASCII-only, as in PHP). -/
def ucfirst : List Char → List Char
  | [] => []
  | c :: cs =>
    (if 'a' ≤ c && c ≤ 'z' then Char.ofNat (c.toNat - 32) else c) :: cs

/-- Decimal rendering of a natural number, as a character list. -/
def natChars (n : Nat) : List Char :=
  (Nat.repr n).data

/-- Decimal rendering of an integer, as a character list. -/
def intChars (i : Int) : List Char :=
  (Int.repr i).data

/-- `$max_section_chars` — the soft per-section cap. -/
def max_section_chars : Nat := 1000

/-- `$max_total_bytes` — the global document ceiling (500 KB). -/
def max_total_bytes : Nat := 500 * 1024

/-- `ProtoContext_Generator::truncate`: soft-cap a section body at
`max_section_chars` characters, preferring to break after the last `.`
or newline in the window when that position is past 50% of the cap.
PHP's `max` over possibly-`false` `mb_strrpos` results behaves, for the
branch test `> 500` and the subsequent `mb_substr`, exactly like `max`
over the positions with `false` read as `0` (both `false > 500` and
`0 > 500` are false, and a `max` exceeding `500` can only come from a
found position). -/
def truncate (text : List Char) : List Char :=
  if text.length ≤ max_section_chars then text
  else
    let cut := text.take max_section_chars
    let last_period := (lastIdxOf '.' cut).getD 0
    let last_newline := (lastIdxOf '\n' cut).getD 0
    let break_at := max last_period last_newline
    if max_section_chars / 2 < break_at then text.take (break_at + 1)
    else cut ++ ("...".data)

/-! ## Heading-likeness (`split_into_sections` line 343-351) -/

/-- Character class `[A-Z\x{00C0}-\x{024F}]` of the title-case regex. -/
def isTCUpper (c : Char) : Bool :=
  ('A' ≤ c && c ≤ 'Z') || (0xC0 ≤ c.toNat && c.toNat ≤ 0x24F)

/-- Character class `[a-z\x{00E0}-\x{024F}]` of the title-case regex. -/
def isTCLower (c : Char) : Bool :=
  ('a' ≤ c && c ≤ 'z') || (0xE0 ≤ c.toNat && c.toNat ≤ 0x24F)

/-- PCRE `\s` (default: space, tab, newline, CR, form feed, vertical tab). -/
def isPcreWS (c : Char) : Bool :=
  c = ' ' || c = '\t' || c = '\n' || c = '\r' || c = '\x0c' || c = '\x0b'

mutual

/-- State "inside a word, at least the required letters consumed" of the
deterministic matcher for `^[U][l]+(\s[U]?[l]*)*$`: accept end, continue
on lowercase-class letters, or start a new `\s`-led block. -/
def tcInWord : List Char → Bool
  | [] => true
  | c :: rest =>
    if isTCLower c then tcInWord rest
    else if isPcreWS c then tcAfterWS rest
    else false

/-- State "just after whitespace" of the title-case matcher: a block
`[U]?[l]*` may be empty (accept end or further whitespace), or start
with an uppercase- or lowercase-class letter. -/
def tcAfterWS : List Char → Bool
  | [] => true
  | c :: rest =>
    if isPcreWS c then tcAfterWS rest
    else if isTCUpper c || isTCLower c then tcInWord rest
    else false

end

/-- The title-case regex
`/^[A-Z\x{00C0}-\x{024F}][a-z\x{00E0}-\x{024F}]+(\s[A-Z\x{00C0}-\x{024F}]?[a-z\x{00E0}-\x{024F}]*)*$/u`
as a deterministic matcher (the whitespace class is disjoint from both
letter classes, so the decomposition into blocks is forced and the
greedy/backtracking semantics coincide with this automaton). -/
def titleCaseMatch : List Char → Bool
  | [] => false
  | c :: rest =>
    isTCUpper c &&
      (match rest with
       | [] => false
       | d :: rest2 => isTCLower d && tcInWord rest2)

/-- One uppercase step of PHP `mb_strtoupper` (full case mapping),
modelled on Basic Latin and Latin-1: `a`-`z` and `à`-`þ` (except `÷`)
map up by 32, `ß` expands to `SS`, `ÿ` maps to `Ÿ`; all other
characters are returned unchanged. -/
def mbUpperChar (c : Char) : List Char :=
  if 'a' ≤ c && c ≤ 'z' then [Char.ofNat (c.toNat - 32)]
  else if c = 'ß' then "SS".data
  else if 0xE0 ≤ c.toNat && c.toNat ≤ 0xFE && c.toNat ≠ 0xF7 then
    [Char.ofNat (c.toNat - 32)]
  else if c.toNat = 0xFF then [Char.ofNat 0x178]
  else [c]

/-- PHP `mb_strtoupper` (modelled via `mbUpperChar`). -/
def mb_strtoupper (l : List Char) : List Char :=
  (l.map mbUpperChar).flatten

/-- The `ALL CAPS` test of the heading heuristic:
`mb_strtoupper($trimmed) === $trimmed`. -/
def phpAllCaps (t : List Char) : Bool :=
  mb_strtoupper t == t

/-- Tail `[.,:;!?]$` test of the heading heuristic. -/
def endsPunct (t : List Char) : Bool :=
  match t.getLast? with
  | some c => c = '.' || c = ',' || c = ':' || c = ';' || c = '!' || c = '?'
  | none => false

/-- The `$is_heading` expression of `split_into_sections` with PHP
operator precedence: `&&` binds tighter than `||`, so the whole
`&&`-chain (ending in the ALL-CAPS test) is one disjunct and the
title-case regex match is the other. -/
def is_heading (t : List Char) : Bool :=
  (decide (3 < t.length) && decide (t.length < 80)
      && !endsPunct t
      && !(t.head? == some '-')
      && !(t.head? == some '•')
      && phpAllCaps t)
    || titleCaseMatch t

/-! ## Section segmentation (`split_into_sections`) -/

/-- Loop state of `split_into_sections`: emitted sections, current
section title, accumulated raw body lines. -/
structure SegState where
  sections : List (List Char)
  title : List Char
  body : List (List Char)
  deriving DecidableEq

/-- Serialised section: `## section: {title}` + blank line + body. -/
def mkSection (title body : List Char) : List Char :=
  "## section: ".data ++ title ++ "\n\n".data ++ body

/-- Close the current section: truncate the trimmed joined body and emit
it only when longer than 30 characters. -/
def closeSection (st : SegState) : List (List Char) :=
  let body_text := truncate (phpTrim (implode ['\n'] st.body))
  if 30 < body_text.length then st.sections ++ [mkSection st.title body_text]
  else st.sections

/-- One iteration of the `foreach ($lines as $line)` loop. -/
def segStep (st : SegState) (line : List Char) : SegState :=
  let trimmed := phpTrim line
  if is_heading trimmed && !st.body.isEmpty then
    { sections := closeSection st, title := trimmed, body := [] }
  else
    { st with body := st.body ++ [line] }

/-- `ProtoContext_Generator::split_into_sections`. -/
def split_into_sections (content page_title : List Char) : List (List Char) :=
  let lines := explode '\n' content
  let st := lines.foldl segStep ⟨[], page_title, []⟩
  let sections := closeSection st
  if sections.isEmpty then [mkSection page_title (truncate content)]
  else sections

/-- The 160/157-character description cap used by `build_header`,
`build_page_context` and `build_category_context`. -/
def cap160 (d : List Char) : List Char :=
  if 160 < d.length then d.take 157 ++ "...".data else d

/-! ## Data model: external WordPress / WooCommerce snapshots -/

/-- A WordPress post row, as read by the generator
(`WP_Post` fields it touches). -/
structure Post where
  id : Nat
  post_type : List Char
  post_name : List Char
  post_title : List Char
  post_excerpt : List Char
  post_content : List Char
  post_parent : Nat
  post_status : List Char
  deriving DecidableEq

/-- A taxonomy term (`WP_Term` fields the generator touches). -/
structure TaxTerm where
  term_id : Nat
  name : List Char
  slug : List Char
  description : List Char
  count : Nat
  parent : Nat
  deriving DecidableEq

/-- A registered public post type (name plus the labels the generator
reads; `labels.name` absent is modelled as `none`). -/
structure PostType where
  name : List Char
  labels_name : Option (List Char)
  deriving DecidableEq

/-- A WooCommerce product object, at the getter interface
`build_product_sections` consumes.  Attribute labels/values and
formatted dimensions are the already-resolved strings WooCommerce
returns. -/
structure WCProduct where
  sku : List Char
  price : List Char
  regular_price : List Char
  sale_price : List Char
  on_sale : Bool
  in_stock : Bool
  stock_quantity : Option Int
  weight : List Char
  dimensions : List Char
  permalink : List Char
  image_id : Nat
  variable_type : Bool
  upsell_ids : List Nat
  cross_sell_ids : List Nat
  status : List Char
  name : List Char
  slug : List Char
  attributes : List (List Char × List Char)
  deriving DecidableEq

/-- One available variation of a variable product (attribute labels
resolved, as `build_variation_sections` reads them). -/
structure WCVariation where
  attributes : List (List Char × List Char)
  price : List Char
  sku : List Char
  in_stock : Bool
  deriving DecidableEq

/-- An Elementor element: a settings record (string settings by key,
plus the repeater lists `walk_elementor` special-cases) and child
elements. -/
inductive ElNode where
  | node (strs : List (List Char × List Char))
      (icon_list : List (List Char))
      (tabs : List (List Char × List Char))
      (accordion_items : List (List Char × List Char))
      (elements : List ElNode)

/-- An ACF field value: a string leaf, a nested field tree, or any other
shape (skipped by `walk_acf`). -/
inductive AcfVal where
  | str (s : List Char)
  | tree (fields : List (List Char × AcfVal))
  | other

/-- The `protocontext_settings` option array (`??`-defaulted keys are
`Option`s). -/
structure PluginSettings where
  mode : Option (List Char)
  site_name : Option (List Char)
  description : Option (List Char)
  lang : Option (List Char)
  topics : Option (List Char)
  industry : Option (List Char)

/-- The external environment of one compile call: the WordPress /
WooCommerce / PHP collaborators the generator reads, supplied as an
immutable snapshot (content rows, option values) and as functions (core
builtins, query results keyed by post id). -/
structure SiteEnv where
  settings : PluginSettings
  blog_name : List Char
  blog_description : List Char
  locale : List Char
  home_host : List Char
  current_date : List Char
  wc_active : Bool
  wc_currency : List Char
  public_post_types : List PostType
  posts : List Post
  product_cats : List TaxTerm
  default_product_cat : Nat
  manual_sections : List (List Char × List Char)
  post_type_exists : List Char → Bool
  strip_shortcodes : List Char → List Char
  wp_strip_all_tags : List Char → List Char
  html_entity_decode : List Char → List Char
  the_content_filter : List Char → List Char
  sanitize_title : List Char → List Char
  elementor_raw : Nat → List Char
  elementor_decoded : Nat → Option (List ElNode)
  acf_available : Bool
  acf_fields : Nat → Option (List (List Char × AcfVal))
  modified_date : Nat → List Char
  categories : Nat → List TaxTerm
  tags : Nat → List (List Char)
  post_terms : Nat → List Char → List (List Char)
  wc_products : Nat → Option WCProduct
  variations : Nat → List WCVariation
  attachment_url : Nat → Option (List Char)
  weight_unit : List Char
  wc_price_display : List Char → List Char
  wc_page_ids : List Nat
  child_pages : Nat → List Post
  product_cat_slugs : Nat → List (List Char)

/-! ## Text normaliser (`clean_text`)

Each `preg_replace` of `clean_text` is a one-pass, leftmost,
non-overlapping scan.  All the patterns involved are deterministic (no
alternative made available by PCRE backtracking can succeed where the
greedy/committed parse fails, because the relevant character classes
are pairwise disjoint), so each is implemented as a scanner
`scanRepl tryF`, where `tryF` attempts a match at the current position
and returns the replacement text plus the input remaining after the
match.  Every `tryF` consumes at least one character on success, so a
fuel of the input length makes the scan total and complete. -/

/-- One-pass replacement scan with explicit fuel. -/
def scanRepl (tryF : List Char → Option (List Char × List Char)) :
    Nat → List Char → List Char
  | 0, l => l
  | _ + 1, [] => []
  | fuel + 1, c :: cs =>
    match tryF (c :: cs) with
    | some (emit, rest) => emit ++ scanRepl tryF fuel rest
    | none => c :: scanRepl tryF fuel cs

/-- Run a replacement scan over a whole string. -/
def runRepl (tryF : List Char → Option (List Char × List Char))
    (l : List Char) : List Char :=
  scanRepl tryF l.length l

/-- Literal, case-sensitive prefix test. -/
def hasPfx : List Char → List Char → Bool
  | [], _ => true
  | _ :: _, [] => false
  | a :: as, b :: bs => a == b && hasPfx as bs

/-- ASCII lowercasing (for `/i` patterns). -/
def asciiLower (c : Char) : Char :=
  if 'A' ≤ c && c ≤ 'Z' then Char.ofNat (c.toNat + 32) else c

/-- Case-insensitive (ASCII) prefix test. -/
def hasPfxCI : List Char → List Char → Bool
  | [], _ => true
  | _ :: _, [] => false
  | a :: as, b :: bs => asciiLower a == asciiLower b && hasPfxCI as bs

/-- Match `pfx [^\]]* \]` at the current position (the shape of the
eight specific builder-token patterns). -/
def tryBracketTok (pfx : List Char) (l : List Char) :
    Option (List Char × List Char) :=
  if hasPfx pfx l then
    match (l.drop pfx.length).dropWhile (fun c => !(c == ']')) with
    | ']' :: tail => some ([], tail)
    | _ => none
  else none

/-- `[a-zA-Z_]`. -/
def isAlphaUnder (c : Char) : Bool :=
  ('a' ≤ c && c ≤ 'z') || ('A' ≤ c && c ≤ 'Z') || c = '_'

/-- `[a-zA-Z0-9_-]`. -/
def isNameChar (c : Char) : Bool :=
  isAlphaUnder c || ('0' ≤ c && c ≤ '9') || c = '-'

/-- Match the catch-all shortcode pattern
`\[\/?[a-zA-Z_][a-zA-Z0-9_-]*(?:\s[^\]]*)?\]` at the current position. -/
def tryGenericTok : List Char → Option (List Char × List Char)
  | '[' :: rest =>
    let rest2 := match rest with
      | '/' :: r => r
      | r => r
    match rest2 with
    | c :: cs =>
      if isAlphaUnder c then
        match cs.dropWhile isNameChar with
        | ']' :: tail => some ([], tail)
        | w :: ws =>
          if isPcreWS w then
            match ws.dropWhile (fun d => !(d == ']')) with
            | ']' :: tail => some ([], tail)
            | _ => none
          else none
        | [] => none
      else none
    | [] => none
  | _ => none

/-- Lazy `[^>]*?-->`: return the input after the first `-->` reachable
without crossing a `>`. -/
def findArrow : List Char → Option (List Char)
  | [] => none
  | c :: cs =>
    if hasPfx ("-->".data) (c :: cs) then some ((c :: cs).drop 3)
    else if c == '>' then none
    else findArrow cs

/-- Match the Gutenberg comment pattern `<!--\s*\/?wp:[^>]*?-->`. -/
def tryWpComment (l : List Char) : Option (List Char × List Char) :=
  if hasPfx ("<!--".data) l then
    let r := (l.drop 4).dropWhile isPcreWS
    let r := match r with
      | '/' :: t => t
      | t => t
    if hasPfx ("wp:".data) r then
      match findArrow (r.drop 3) with
      | some rest => some ([], rest)
      | none => none
    else none
  else none

/-- Lazy `.*?` up to the first case-insensitive occurrence of `pat`
(with `/s`, the dot crosses newlines); returns the input after it. -/
def findCI (pat : List Char) : List Char → Option (List Char)
  | [] => none
  | c :: cs =>
    if hasPfxCI pat (c :: cs) then some ((c :: cs).drop pat.length)
    else findCI pat cs

/-- Match `openPfx[^>]*>.*?closePat` (the `<style>`/`<script>` block
patterns, `/si`). -/
def tryBlockRemove (openPfx closePat : List Char) (l : List Char) :
    Option (List Char × List Char) :=
  if hasPfxCI openPfx l then
    match (l.drop openPfx.length).dropWhile (fun c => !(c == '>')) with
    | '>' :: rest =>
      match findCI closePat rest with
      | some tail => some ([], tail)
      | none => none
    | _ => none
  else none

/-- Match `<br\s*\/?>` (`/i`). -/
def tryBr (l : List Char) : Option (List Char × List Char) :=
  if hasPfxCI ("<br".data) l then
    let r := (l.drop 3).dropWhile isPcreWS
    let r2 := match r with
      | '/' :: t => t
      | t => t
    match r2 with
    | '>' :: tail => some ("\n".data, tail)
    | _ => none
  else none

/-- The tag-name alternatives of `<\/(p|div|h[1-6]|li|tr|blockquote)>`. -/
def closingTagNames : List (List Char) :=
  ["p", "div", "h1", "h2", "h3", "h4", "h5", "h6", "li", "tr",
   "blockquote"].map String.data

/-- Match `<\/(p|div|h[1-6]|li|tr|blockquote)>` (`/i`). -/
def tryClosing (l : List Char) : Option (List Char × List Char) :=
  if hasPfx ("</".data) l then
    let r := l.drop 2
    match closingTagNames.findSome? (fun n =>
        if hasPfxCI n r then
          match r.drop n.length with
          | '>' :: tail => some tail
          | _ => none
        else none) with
    | some tail => some ("\n".data, tail)
    | none => none
  else none

/-- Match `<li[^>]*>` (`/i`). -/
def tryLiOpen (l : List Char) : Option (List Char × List Char) :=
  if hasPfxCI ("<li".data) l then
    match (l.drop 3).dropWhile (fun c => !(c == '>')) with
    | '>' :: tail => some ("- ".data, tail)
    | _ => none
  else none

/-- Match `[ \t]+` (collapse runs of horizontal whitespace). -/
def tryBlanks : List Char → Option (List Char × List Char)
  | c :: cs =>
    if c == ' ' || c == '\t' then
      some ([' '], cs.dropWhile (fun d => d == ' ' || d == '\t'))
    else none
  | [] => none

/-- Match `\n[ \t]+` (strip leading whitespace of continuation lines). -/
def tryNlBlanks : List Char → Option (List Char × List Char)
  | '\n' :: c :: cs =>
    if c == ' ' || c == '\t' then
      some (['\n'], cs.dropWhile (fun d => d == ' ' || d == '\t'))
    else none
  | _ => none

/-- Match `\n{3,}` (collapse 3+ newlines to exactly 2). -/
def tryNl3 : List Char → Option (List Char × List Char)
  | '\n' :: '\n' :: '\n' :: cs =>
    some (['\n', '\n'], cs.dropWhile (fun d => d == '\n'))
  | _ => none

/-- `[\x{200B}-\x{200D}\x{FEFF}\x{00A0}]`. -/
def isZeroWidth (c : Char) : Bool :=
  (0x200B ≤ c.toNat && c.toNat ≤ 0x200D) || c.toNat = 0xFEFF || c.toNat = 0xA0

/-- The prefixes of the eight specific `$builder_patterns` (each pattern
is `prefix [^\]]* \]`), in source order. -/
def builder_pfxs : List (List Char) :=
  ["[elementor-template", "[vc_", "[/vc_", "[et_pb_", "[/et_pb_",
   "[fusion_", "[/fusion_", "[fl_builder"].map String.data

/-- `ProtoContext_Generator::clean_text`: the full normalisation
pipeline.  `strip_shortcodes`, `wp_strip_all_tags` and
`html_entity_decode` are WordPress/PHP builtins taken from the
environment. -/
def clean_text (env : SiteEnv) (text : List Char) : List Char :=
  let t := builder_pfxs.foldl (fun acc p => runRepl (tryBracketTok p) acc) text
  let t := runRepl tryGenericTok t
  let t := env.strip_shortcodes t
  let t := runRepl tryWpComment t
  let t := runRepl (tryBlockRemove ("<style".data) ("</style>".data)) t
  let t := runRepl (tryBlockRemove ("<script".data) ("</script>".data)) t
  let t := runRepl tryBr t
  let t := runRepl tryClosing t
  let t := runRepl tryLiOpen t
  let t := env.wp_strip_all_tags t
  let t := env.html_entity_decode t
  let t := t.map (fun c => if isZeroWidth c then ' ' else c)
  let t := runRepl tryBlanks t
  let t := runRepl tryNlBlanks t
  let t := runRepl tryNl3 t
  phpTrim t

/-! ## Byte-level view (PHP `strlen` / `substr`) -/

/-- UTF-8 encoding of one character. -/
def charUtf8 (c : Char) : List Nat :=
  let n := c.toNat
  if n < 0x80 then [n]
  else if n < 0x800 then [0xC0 + n / 64, 0x80 + n % 64]
  else if n < 0x10000 then
    [0xE0 + n / 4096, 0x80 + (n / 64) % 64, 0x80 + n % 64]
  else
    [0xF0 + n / 262144, 0x80 + (n / 4096) % 64, 0x80 + (n / 64) % 64,
     0x80 + n % 64]

/-- The byte string PHP holds for a (UTF-8) text: what `strlen` counts
and `substr` slices. -/
def phpBytes (l : List Char) : List Nat :=
  (l.map charUtf8).flatten

/-! ## Headers, metadata, topics -/

/-- `$this->settings['site_name'] ?? get_bloginfo('name')`. -/
def site_name (env : SiteEnv) : List Char :=
  env.settings.site_name.getD env.blog_name

/-- `$this->settings['description'] ?? get_bloginfo('description')`. -/
def site_desc (env : SiteEnv) : List Char :=
  env.settings.description.getD env.blog_description

/-- `ProtoContext_Generator::build_header`. -/
def build_header (env : SiteEnv) : List Char :=
  "# ".data ++ site_name env ++ "\n> ".data ++ cap160 (site_desc env)

/-- `ProtoContext_Generator::detect_industry`. -/
def detect_industry (env : SiteEnv) : List Char :=
  let industry := env.settings.industry.getD []
  if phpTruthy industry then industry
  else if env.wc_active then "ecommerce".data
  else []

/-- `$this->settings['lang'] ?? substr(get_locale(), 0, 2)`. -/
def lang_code (env : SiteEnv) : List Char :=
  env.settings.lang.getD (env.locale.take 2)

/-- `ProtoContext_Generator::build_metadata`. -/
def build_metadata (env : SiteEnv) : List Char :=
  let topics := env.settings.topics.getD []
  let meta := "@lang: ".data ++ lang_code env
    ++ "\n@version: 1.0\n@updated: ".data ++ env.current_date
    ++ "\n@canonical: https://".data ++ env.home_host ++ "/context.txt".data
  let industry := detect_industry env
  let meta := meta ++
    (if phpTruthy industry then
      "\n@industry: ".data ++ industry ++ "\n@content_type: ".data ++ industry
     else "\n@content_type: website".data)
  let meta := meta ++
    (if env.wc_active then "\n@currency: ".data ++ env.wc_currency else [])
  meta ++ (if phpTruthy topics then "\n@topics: ".data ++ topics else [])

/-- `ProtoContext_Generator::detect_content_type` (`function_exists`
for the WooCommerce page-id helper is subsumed in `wc_active`; the four
shop page ids are the snapshot `wc_page_ids`). -/
def detect_content_type (env : SiteEnv) (post : Post) : List Char :=
  if post.post_type = "product".data then "product".data
  else if env.wc_active && env.wc_page_ids.contains post.id then
    "ecommerce".data
  else "website".data

/-- PHP `array_unique` (keeps the first occurrence). -/
def phpUniqueAux (seen : List (List Char)) : List (List Char) → List (List Char)
  | [] => []
  | x :: xs =>
    if seen.contains x then phpUniqueAux seen xs
    else x :: phpUniqueAux (x :: seen) xs

/-- PHP `array_unique` on a list of strings. -/
def phpUnique (l : List (List Char)) : List (List Char) :=
  phpUniqueAux [] l

/-- `ProtoContext_Generator::get_post_topics`. -/
def get_post_topics (env : SiteEnv) (post : Post) : List Char :=
  let topics := ((env.categories post.id).filter
      (fun c => !(c.slug == "uncategorized".data))).map (fun c => c.name)
  let topics := topics ++ env.tags post.id
  let topics :=
    if post.post_type = "product".data then
      topics ++ env.post_terms post.id ("product_cat".data)
    else topics
  implode (", ".data) (phpUnique (topics.take 10))

/-! ## Structured tree extraction (Elementor / ACF) -/

/-- The allow-listed Elementor settings keys, in source order. -/
def elKeys : List (List Char) :=
  ["title", "description", "editor", "text", "heading_title",
   "title_text", "description_text", "content", "inner_text",
   "tab_title", "tab_content", "alert_title", "alert_description",
   "testimonial_content", "testimonial_name", "price",
   "item_description", "blockquote_content", "html"].map String.data

/-- Fragments contributed by one settings record of one element. -/
def elSettingsTexts (env : SiteEnv)
    (strs : List (List Char × List Char)) (icon_list : List (List Char))
    (tabs accordion_items : List (List Char × List Char)) :
    List (List Char) :=
  (elKeys.map (fun k =>
      match strs.lookup k with
      | some v =>
        if phpTruthy v then
          let t := clean_text env v
          if 3 < t.length then [t] else []
        else []
      | none => [])).flatten
  ++ (icon_list.map (fun item =>
      if phpTruthy item then ["- ".data ++ clean_text env item] else [])).flatten
  ++ ((tabs ++ accordion_items).map (fun tab =>
      (if phpTruthy tab.1 then [clean_text env tab.1] else [])
      ++ (if phpTruthy tab.2 then [clean_text env tab.2] else []))).flatten

mutual

/-- `ProtoContext_Generator::walk_elementor` over one element. -/
def walkElNode (env : SiteEnv) : ElNode → List (List Char)
  | .node strs icon_list tabs accordion_items elements =>
    elSettingsTexts env strs icon_list tabs accordion_items
      ++ walkElList env elements

/-- `walk_elementor` over a list of elements. -/
def walkElList (env : SiteEnv) : List ElNode → List (List Char)
  | [] => []
  | n :: rest => walkElNode env n ++ walkElList env rest

end

/-- `ProtoContext_Generator::extract_elementor_text` (the `json_decode`
of the raw meta is environment-supplied; a non-array decode yields the
empty string). -/
def extract_elementor_text (env : SiteEnv) (decoded : Option (List ElNode)) :
    List Char :=
  match decoded with
  | none => []
  | some nodes => implode ['\n'] (walkElList env nodes)

/-- The serialized-value guard `^(https?:\/\/|\/|a:\d|O:\d)` of
`walk_acf`. -/
def acfSerializedLike (s : List Char) : Bool :=
  hasPfx ("http://".data) s || hasPfx ("https://".data) s
    || hasPfx ("/".data) s
    || (hasPfx ("a:".data) s
        && (match s.drop 2 with
            | d :: _ => '0' ≤ d && d ≤ '9'
            | [] => false))
    || (hasPfx ("O:".data) s
        && (match s.drop 2 with
            | d :: _ => '0' ≤ d && d ≤ '9'
            | [] => false))

mutual

/-- `ProtoContext_Generator::walk_acf` over a field list. -/
def walkAcf (env : SiteEnv) : List (List Char × AcfVal) → List (List Char)
  | [] => []
  | (k, v) :: rest =>
    (if k.head? == some '_' then []
     else walkAcfVal env v) ++ walkAcf env rest

/-- `walk_acf` over one field value. -/
def walkAcfVal (env : SiteEnv) : AcfVal → List (List Char)
  | .str s =>
    if 10 < s.length && s.length < 5000 && !acfSerializedLike s then
      let t := clean_text env s
      if 10 < t.length then [t] else []
    else []
  | .tree fields => walkAcf env fields
  | .other => []

end

/-- `ProtoContext_Generator::extract_acf_fields`. -/
def extract_acf_fields (env : SiteEnv) (post_id : Nat) : List Char :=
  match env.acf_fields post_id with
  | none => []
  | some [] => []
  | some fields => implode ['\n'] (walkAcf env fields)

/-- `ProtoContext_Generator::get_rendered_content`: Elementor override,
ACF append, `apply_filters('the_content', …)`, then `clean_text`. -/
def get_rendered_content (env : SiteEnv) (post : Post) : List Char :=
  let raw := post.post_content
  let raw :=
    if phpTruthy (env.elementor_raw post.id) then
      let elementor_text :=
        extract_elementor_text env (env.elementor_decoded post.id)
      if (clean_text env raw).length < elementor_text.length then
        elementor_text
      else raw
    else raw
  let raw :=
    if env.acf_available then
      let acf_text := extract_acf_fields env post.id
      if phpTruthy acf_text then raw ++ '\n' :: acf_text else raw
    else raw
  clean_text env (env.the_content_filter raw)

/-- `ProtoContext_Generator::get_short_description` (PHP `strtok`
returns the first non-empty token, or `false` — coerced to the empty
string — when there is none). -/
def get_short_description (env : SiteEnv) (post : Post) : List Char :=
  let content := get_rendered_content env post
  let first_line := ((explode '\n' content).find?
      (fun l => !(l == []))).getD []
  if 10 < first_line.length then first_line
  else content.take 160

/-- The per-page description of `build_page_context` (excerpt if
truthy, otherwise the derived short description), before the 160-cap. -/
def page_desc (env : SiteEnv) (post : Post) : List Char :=
  if phpTruthy post.post_excerpt then clean_text env post.post_excerpt
  else get_short_description env post

/-- The header part (`# {title}\n> {desc}`) of `build_page_context`. -/
def page_header (env : SiteEnv) (post : Post) : List Char :=
  "# ".data ++ post.post_title ++ "\n> ".data ++ cap160 (page_desc env post)

/-! ## Index / sitemap discovery -/

/-- `$exclude_slugs`. -/
def exclude_slugs : List (List Char) :=
  ["cart", "checkout", "my-account", "account", "login", "register",
   "privacy-policy", "cookie-policy", "terms-and-conditions",
   "sample-page", "hello-world", "feed", "wp-json"].map String.data

/-- `ProtoContext_Generator::is_excluded`. -/
def is_excluded (post : Post) : Bool :=
  exclude_slugs.contains post.post_name

/-- `ProtoContext_Generator::get_context_path`. -/
def get_context_path (env : SiteEnv) (post : Post) : List Char :=
  if post.post_type = "page".data then
    if post.post_parent ≠ 0 then
      match env.posts.find? (fun q => q.id == post.post_parent) with
      | some parent => parent.post_name ++ '/' :: post.post_name
      | none => post.post_name
    else post.post_name
  else if post.post_type = "post".data then "blog/".data ++ post.post_name
  else if post.post_type = "product".data then
    "products/".data ++ post.post_name
  else post.post_type ++ '/' :: post.post_name

/-- A sitemap entry (the associative array built in
`discover_all_entries`). -/
structure SitemapEntry where
  title : List Char
  path : List Char
  type_name : List Char
  type_label : List Char
  description : List Char
  deriving DecidableEq

/-- The short description `discover_all_entries` derives for a post:
the cleaned excerpt when present, otherwise the first 120 characters of
the cleaned body (plus an ellipsis when longer) with newlines replaced
by spaces. -/
def post_entry_desc (env : SiteEnv) (post : Post) : List Char :=
  if phpTruthy post.post_excerpt then clean_text env post.post_excerpt
  else
    let content := clean_text env post.post_content
    if phpTruthy content then
      let desc := content.take 120
      let desc := if 120 < content.length then desc ++ "...".data else desc
      desc.map (fun c => if c = '\n' then ' ' else c)
    else []

/-- The entry built for one post of one post type. -/
def mk_post_entry (env : SiteEnv) (pt : PostType) (post : Post) :
    SitemapEntry :=
  { title := post.post_title
    path := get_context_path env post
    type_name := pt.name
    type_label := pt.labels_name.getD (ucfirst pt.name)
    description := post_entry_desc env post }

/-- The posts `get_posts` returns for one public post type in
`discover_all_entries` (published rows of that type, first 100, in
snapshot order). -/
def posts_for_type (env : SiteEnv) (pt : PostType) : List Post :=
  (env.posts.filter (fun p =>
      p.post_type == pt.name && p.post_status == "publish".data)).take 100

/-- The `foreach ($posts as $post)` loop of `discover_all_entries`,
with its `continue` on excluded slugs. -/
def entries_for_type (env : SiteEnv) (pt : PostType) :
    List Post → List SitemapEntry
  | [] => []
  | p :: ps =>
    if is_excluded p then entries_for_type env pt ps
    else mk_post_entry env pt p :: entries_for_type env pt ps

/-- The description of a WooCommerce category entry. -/
def cat_entry_desc (env : SiteEnv) (cat : TaxTerm) : List Char :=
  if phpTruthy cat.description then (clean_text env cat.description).take 120
  else natChars cat.count ++ " products".data

/-- The entry built for one WooCommerce product category. -/
def mk_cat_entry (env : SiteEnv) (cat : TaxTerm) : SitemapEntry :=
  { title := cat.name
    path := "shop/".data ++ cat.slug
    type_name := "product_cat".data
    type_label := "Shop Categories".data
    description := cat_entry_desc env cat }

/-- The product categories `get_terms` returns in
`discover_all_entries` (non-empty terms, default category excluded). -/
def cats_for_index (env : SiteEnv) : List TaxTerm :=
  env.product_cats.filter (fun c =>
    0 < c.count && c.term_id ≠ env.default_product_cat)

/-- `ProtoContext_Generator::discover_all_entries` (`attachment` is
removed from the public post types before the loop). -/
def discover_all_entries (env : SiteEnv) : List SitemapEntry :=
  ((env.public_post_types.filter (fun pt =>
      !(pt.name == "attachment".data))).map (fun pt =>
      entries_for_type env pt (posts_for_type env pt))).flatten
  ++ (if env.wc_active then (cats_for_index env).map (mk_cat_entry env)
      else [])

/-- Group sitemap entries by type label, preserving first-seen group
order and per-group entry order (PHP associative-array insertion). -/
def insertGroup (label : List Char) (e : SitemapEntry) :
    List (List Char × List SitemapEntry) →
    List (List Char × List SitemapEntry)
  | [] => [(label, [e])]
  | (lab, es) :: rest =>
    if lab == label then (lab, es ++ [e]) :: rest
    else (lab, es) :: insertGroup label e rest

/-- The `$grouped` associative array of `build_sitemap`. -/
def groupByLabel (entries : List SitemapEntry) :
    List (List Char × List SitemapEntry) :=
  entries.foldl (fun acc e => insertGroup e.type_label e acc) []

/-- The listing lines for one group of `build_sitemap`. -/
def sitemap_group_lines (env : SiteEnv)
    (g : List Char × List SitemapEntry) : List (List Char) :=
  (g.1 ++ ":".data)
    :: (g.2.map (fun item =>
        [("  - ".data ++ item.title
            ++ (if phpTruthy item.description then
                  " — ".data ++ item.description
                else [])),
         ("    https://".data ++ env.home_host ++ "/context/".data
            ++ item.path ++ ".txt".data)])).flatten
    ++ [[]]

/-- `ProtoContext_Generator::build_sitemap`. -/
def build_sitemap (env : SiteEnv) : List Char :=
  let entries := discover_all_entries env
  if entries.isEmpty then
    "## section: Site Map\n\nNo published content found.".data
  else
    let lines := ((groupByLabel entries).map (sitemap_group_lines env)).flatten
    "## section: Site Map\n\n".data ++ phpTrim (implode ['\n'] lines)

/-- PHP `array_filter` on a list of strings (drops falsy entries). -/
def php_array_filter (parts : List (List Char)) : List (List Char) :=
  parts.filter phpTruthy

/-- `ProtoContext_Generator::generate_index` — note: no size ceiling is
applied to the assembled index. -/
def generate_index (env : SiteEnv) : List Char :=
  implode ("\n\n".data)
    (php_array_filter [build_header env, build_metadata env, build_sitemap env])

/-! ## WooCommerce product sections (PCE blocks) -/

/-- The `PRODUCT_ID` value: the SKU when truthy, otherwise the
synthesized `wc-{id}` identifier. -/
def product_ident (product_id : Nat) (product : WCProduct) : List Char :=
  if phpTruthy product.sku then product.sku
  else "wc-".data ++ natChars product_id

/-- The ordered `KEY: value` lines of the PCE Product Details block. -/
def pce_detail_lines (env : SiteEnv) (product_id : Nat)
    (product : WCProduct) : List (List Char) :=
  ["PRODUCT_ID: ".data ++ product_ident product_id product,
   "PRICE: ".data ++ product.price,
   "CURRENCY: ".data ++ env.wc_currency]
  ++ (if product.on_sale then
        ["REGULAR_PRICE: ".data ++ product.regular_price,
         "SALE_PRICE: ".data ++ product.sale_price]
      else [])
  ++ ["STOCK_STATUS: ".data
        ++ (if product.in_stock then "in_stock".data else "out_of_stock".data)]
  ++ (match product.stock_quantity with
      | some q => ["STOCK_QUANTITY: ".data ++ intChars q]
      | none => [])
  ++ (let cats := env.post_terms product_id ("product_cat".data)
      if !cats.isEmpty then ["CATEGORY: ".data ++ implode (", ".data) cats]
      else [])
  ++ (let tag_names := env.post_terms product_id ("product_tag".data)
      if !tag_names.isEmpty then
        ["TAGS: ".data ++ implode (", ".data) tag_names]
      else [])
  ++ (if phpTruthy product.weight then
        ["WEIGHT: ".data ++ product.weight ++ ' ' :: env.weight_unit]
      else [])
  ++ (if phpTruthy product.dimensions
          && !(product.dimensions == "N/A".data) then
        ["DIMENSIONS: ".data ++ product.dimensions]
      else [])
  ++ ["PURCHASE_URL: ".data ++ product.permalink,
      "ACTION: product_purchase".data]
  ++ (if product.image_id ≠ 0 then
        match env.attachment_url product.image_id with
        | some u => ["IMAGE_URL: ".data ++ u]
        | none => []
      else [])

/-- `ProtoContext_Generator::build_variation_sections`. -/
def build_variation_sections (env : SiteEnv) (product_id : Nat) :
    List (List Char) :=
  let vars := env.variations product_id
  if vars.isEmpty then []
  else
    let lines := vars.map (fun v =>
      let attr_str := implode (" | ".data)
          (v.attributes.map (fun a => a.1 ++ ": ".data ++ a.2))
      let line := "- ".data ++ attr_str ++ " — ".data ++ env.wc_currency
          ++ ' ' :: v.price
      let line :=
        if phpTruthy v.sku then line ++ " (SKU: ".data ++ v.sku ++ ")".data
        else line
      line ++ (if v.in_stock then " [In stock]".data
               else " [Out of stock]".data))
    if lines.isEmpty then []
    else ["## section: Available Variations\n\n".data ++ implode ['\n'] lines]

/-- The two listing lines for one related product. -/
def related_lines (env : SiteEnv) (p : WCProduct) : List (List Char) :=
  ["- ".data ++ p.name ++ " — ".data ++ env.wc_price_display p.price,
   "  https://".data ++ env.home_host ++ "/context/products/".data
     ++ p.slug ++ ".txt".data]

/-- `ProtoContext_Generator::build_related_products_section`. -/
def build_related_products_section (env : SiteEnv) (product : WCProduct) :
    Option (List Char) :=
  let upsell_part := ((product.upsell_ids.take 5).map (fun i =>
      match env.wc_products i with
      | some p =>
        if p.status == "publish".data then related_lines env p else []
      | none => [])).flatten
  let cross_part := ((product.cross_sell_ids.take 5).map (fun i =>
      match env.wc_products i with
      | some p =>
        if p.status == "publish".data then
          if product.upsell_ids.contains i then [] else related_lines env p
        else []
      | none => [])).flatten
  let lines := upsell_part ++ cross_part
  if lines.isEmpty then none
  else some ("## section: Related Products\n\n".data ++ implode ['\n'] lines)

/-- `ProtoContext_Generator::build_product_sections`. -/
def build_product_sections (env : SiteEnv) (product_id : Nat) :
    List (List Char) :=
  match env.wc_products product_id with
  | none => []
  | some product =>
    let details := "## section: Product Details\n\n".data
        ++ implode ['\n'] (pce_detail_lines env product_id product)
    let specs :=
      if !product.attributes.isEmpty then
        let attr_lines := product.attributes.map (fun a =>
            a.1 ++ ": ".data ++ a.2)
        if !attr_lines.isEmpty then
          ["## section: Specifications\n\n".data ++ implode ['\n'] attr_lines]
        else []
      else []
    let variation_sections :=
      if product.variable_type then build_variation_sections env product_id
      else []
    let related := match build_related_products_section env product with
      | some r => [r]
      | none => []
    details :: specs ++ variation_sections ++ related

/-! ## Single-page document -/

/-- `ProtoContext_Generator::get_child_pages_section`. -/
def get_child_pages_section (env : SiteEnv) (post : Post) :
    Option (List Char) :=
  if !(post.post_type == "page".data) then none
  else
    match env.child_pages post.id with
    | [] => none
    | children =>
      let lines := (children.map (fun child =>
          ["- ".data ++ child.post_title
             ++ (if phpTruthy child.post_excerpt then
                   " — ".data ++ clean_text env child.post_excerpt
                 else []),
           "  https://".data ++ env.home_host ++ "/context/".data
             ++ post.post_name ++ '/' :: child.post_name
             ++ ".txt".data])).flatten
      some ("## section: Sub-pages\n\n".data ++ implode ['\n'] lines)

/-- The metadata part of `build_page_context`. -/
def page_meta (env : SiteEnv) (post : Post) : List Char :=
  let date :=
    if phpTruthy (env.modified_date post.id) then env.modified_date post.id
    else env.current_date
  let path := get_context_path env post
  let meta := "@lang: ".data ++ lang_code env
    ++ "\n@version: 1.0\n@updated: ".data ++ date
    ++ "\n@canonical: https://".data ++ env.home_host
    ++ "/context/".data ++ path ++ ".txt".data
  let meta := meta ++ "\n@content_type: ".data ++ detect_content_type env post
  let industry := detect_industry env
  let meta := meta
    ++ (if phpTruthy industry then "\n@industry: ".data ++ industry else [])
  let meta := meta
    ++ (if env.wc_active then "\n@currency: ".data ++ env.wc_currency else [])
  let topics := get_post_topics env post
  meta ++ (if phpTruthy topics then "\n@topics: ".data ++ topics else [])

/-- The `$parts` array of `build_page_context`, in source order:
header, metadata, content sections, product sections, child pages. -/
def build_page_context_parts (env : SiteEnv) (post : Post) :
    List (List Char) :=
  [page_header env post, page_meta env post]
  ++ (let content := get_rendered_content env post
      if phpTruthy content then split_into_sections content post.post_title
      else [])
  ++ (if post.post_type == "product".data && env.wc_active then
        build_product_sections env post.id
      else [])
  ++ (match get_child_pages_section env post with
      | some s => [s]
      | none => [])

/-- `ProtoContext_Generator::build_page_context`: join the filtered
parts with blank lines and clip the byte string at `max_total_bytes`
(`strlen`/`substr` are byte-level, hence the `phpBytes` view). -/
def build_page_context (env : SiteEnv) (post : Post) : List Nat :=
  let output := phpBytes (implode ("\n\n".data)
      (php_array_filter (build_page_context_parts env post)))
  if max_total_bytes < output.length then output.take max_total_bytes
  else output

/-! ## Category document -/

/-- One product listing block of `build_category_context`. -/
def category_product_block (env : SiteEnv) (p : Post) (w : WCProduct) :
    List Char :=
  let line := "PRODUCT_ID: ".data ++ product_ident p.id w
  let line := line ++ "\nNAME: ".data ++ p.post_title
  let line := line ++ "\nPRICE: ".data ++ w.price
  let line := line ++ "\nCURRENCY: ".data ++ env.wc_currency
  let line := line ++ "\nSTOCK_STATUS: ".data
      ++ (if w.in_stock then "in_stock".data else "out_of_stock".data)
  let line := line ++ "\nPURCHASE_URL: ".data ++ w.permalink
  let line := line ++ "\nDETAILS_URL: https://".data ++ env.home_host
      ++ "/context/products/".data ++ p.post_name ++ ".txt".data
  let line := line ++ "\nACTION: product_purchase".data
  let short_desc :=
    if phpTruthy p.post_excerpt then clean_text env p.post_excerpt else []
  if phpTruthy short_desc then
    let short_desc :=
      if 120 < short_desc.length then short_desc.take 117 ++ "...".data
      else short_desc
    line ++ '\n' :: short_desc
  else line

/-- `ProtoContext_Generator::build_category_context` — `null` exactly
when the slug matches no product-category term; note: no size ceiling
is applied to the assembled document. -/
def build_category_context (env : SiteEnv) (category_slug : List Char) :
    Option (List Char) :=
  match env.product_cats.find? (fun t => t.slug == category_slug) with
  | none => none
  | some term =>
    let header := "# ".data ++ term.name
      ++ (if phpTruthy term.description then
            "\n> ".data ++ cap160 (clean_text env term.description)
          else [])
    let meta := "@lang: ".data ++ lang_code env
      ++ "\n@version: 1.0\n@updated: ".data ++ env.current_date
      ++ "\n@canonical: https://".data ++ env.home_host
      ++ "/context/shop/".data ++ category_slug ++ ".txt".data
      ++ "\n@content_type: ecommerce\n@industry: ecommerce\n@currency: ".data
      ++ env.wc_currency
    let products := (env.posts.filter (fun p =>
        p.post_type == "product".data && p.post_status == "publish".data
          && (env.product_cat_slugs p.id).contains category_slug)).take 50
    let product_parts :=
      if !products.isEmpty then
        let product_lines := products.filterMap (fun p =>
            (env.wc_products p.id).map (category_product_block env p))
        ["## section: Products\n\n".data
           ++ implode ("\n\n".data) product_lines]
      else []
    let subcats := env.product_cats.filter (fun s =>
        s.parent == term.term_id && 0 < s.count)
    let subcat_parts :=
      if !subcats.isEmpty then
        let sub_lines := (subcats.map (fun sub =>
            ["- ".data ++ sub.name ++ " (".data ++ natChars sub.count
               ++ " products)".data,
             "  https://".data ++ env.home_host ++ "/context/shop/".data
               ++ sub.slug ++ ".txt".data])).flatten
        ["## section: Sub-categories\n\n".data ++ implode ['\n'] sub_lines]
      else []
    some (implode ("\n\n".data)
      (php_array_filter ([header, meta] ++ product_parts ++ subcat_parts)))

/-! ## Manual mode, slug resolution, `generate_page` -/

/-- `ProtoContext_Generator::generate_manual_page`. -/
def generate_manual_page (env : SiteEnv) (slug : List Char) :
    Option (List Char) :=
  match env.manual_sections.find? (fun s =>
      env.sanitize_title s.1 == slug && phpTruthy s.2) with
  | none => none
  | some section_pair =>
    some (implode ("\n\n".data)
      [build_header env, build_metadata env,
       "## section: ".data ++ section_pair.1 ++ "\n\n".data
         ++ clean_text env section_pair.2])

/-- Does this (page) post's hierarchical parent chain match the given
reversed list of ancestor slugs (nearest parent first), ending at a
top-level page?  Fuel bounds the chain walk. -/
def pageChainOk (env : SiteEnv) : Nat → Post → List (List Char) → Bool
  | _, p, [] => p.post_parent == 0
  | 0, _, _ :: _ => false
  | fuel + 1, p, seg :: rest =>
    match env.posts.find? (fun q => q.id == p.post_parent) with
    | some parent => parent.post_name == seg && pageChainOk env fuel parent rest
    | none => false

/-- Does a page's hierarchical path match the given path segments (its
own slug is the last segment, its ancestors the earlier ones)? -/
def page_path_pred (env : SiteEnv) (segs : List (List Char)) (p : Post) : Bool :=
  p.post_type == "page".data && p.post_name == segs.getLast?.getD []
    && pageChainOk env env.posts.length p segs.dropLast.reverse

/-- WordPress `get_page_by_path` (external collaborator, modelled by
its contract): the page whose full hierarchical path equals `path`. -/
def get_page_by_path (env : SiteEnv) (path : List Char) : Option Post :=
  env.posts.find? (page_path_pred env (explode '/' path))

/-- The `$type_map` of `find_post`. -/
def type_map_lookup (ty : List Char) : Option (List Char) :=
  if ty = "blog".data then some ("post".data)
  else if ty = "products".data then some ("product".data)
  else none

/-- The post-type / parent-slug resolution of `find_post`
(`none` as the first component models `'any'`). -/
def resolve_type (env : SiteEnv) (ty : List Char) :
    Option (List Char) × List Char :=
  if ty = [] then (none, [])
  else
    match type_map_lookup ty with
    | some t => (some t, [])
    | none =>
      match get_page_by_path env ty with
      | some _ => (some ("page".data), ty)
      | none =>
        if env.post_type_exists ty then (some ty, []) else (none, [])

/-- The post types admitted by the slug query of `find_post`. -/
def allowed_types (env : SiteEnv) : Option (List Char) → List (List Char)
  | some t => [t]
  | none => env.public_post_types.map (fun pt => pt.name)

/-- The `get_posts` slug query of `find_post` (published rows named
`slug` whose type is admitted, in snapshot order). -/
def query_posts (env : SiteEnv) (slug : List Char)
    (allowed : List (List Char)) : List Post :=
  env.posts.filter (fun p =>
    p.post_name == slug && p.post_status == "publish".data
      && allowed.contains p.post_type)

/-- The parent-path branch of `find_post`: when the URL type segment
resolved to a parent page slug, look the full path up and accept a
published page. -/
def find_post_via_path (env : SiteEnv) (slug ty : List Char) : Option Post :=
  if (resolve_type env ty).2 ≠ [] then
    match get_page_by_path env ((resolve_type env ty).2 ++ '/' :: slug) with
    | some page =>
      if page.post_status == "publish".data then some page else none
    | none => none
  else none

/-- `ProtoContext_Generator::find_post`. -/
def find_post (env : SiteEnv) (slug ty : List Char) : Option Post :=
  match find_post_via_path env slug ty with
  | some page => some page
  | none => (query_posts env slug (allowed_types env (resolve_type env ty).1)).head?

/-- `ProtoContext_Generator::generate_page`: manual mode first, then
WooCommerce category documents for `/context/shop/{slug}.txt`, then
single posts/pages/products by slug.  Returns the byte string PHP
would hand to the HTTP layer. -/
def generate_page (env : SiteEnv) (slug ty : List Char) : Option (List Nat) :=
  if env.settings.mode.getD ("auto".data) = "manual".data then
    (generate_manual_page env slug).map phpBytes
  else if ty = "shop".data && env.wc_active then
    (build_category_context env slug).map phpBytes
  else
    match find_post env slug ty with
    | none => none
    | some post => some (build_page_context env post)

/-! ## Concrete environments used in the witnesses and counterexamples -/

/-- An empty settings array (every `??` takes its default). -/
def emptySettings : PluginSettings :=
  { mode := none, site_name := none, description := none, lang := none,
    topics := none, industry := none }

/-- A minimal concrete environment: no content, WooCommerce inactive,
and the external PHP/WordPress text builtins acting as the identity
(as they do on text containing no shortcodes, tags or entities). -/
def defEnv : SiteEnv :=
  { settings := emptySettings
    blog_name := "Site".data
    blog_description := "A site".data
    locale := "en_US".data
    home_host := "example.com".data
    current_date := "2026-01-01".data
    wc_active := false
    wc_currency := "USD".data
    public_post_types := []
    posts := []
    product_cats := []
    default_product_cat := 0
    manual_sections := []
    post_type_exists := fun _ => false
    strip_shortcodes := id
    wp_strip_all_tags := id
    html_entity_decode := id
    the_content_filter := id
    sanitize_title := id
    elementor_raw := fun _ => []
    elementor_decoded := fun _ => none
    acf_available := false
    acf_fields := fun _ => none
    modified_date := fun _ => []
    categories := fun _ => []
    tags := fun _ => []
    post_terms := fun _ _ => []
    wc_products := fun _ => none
    variations := fun _ => []
    attachment_url := fun _ => none
    weight_unit := "kg".data
    wc_price_display := id
    wc_page_ids := []
    child_pages := fun _ => []
    product_cat_slugs := fun _ => [] }

/-! ## Supporting lemmas -/

theorem lastIdxOf_lt_length {c : Char} :
    ∀ {l : List Char} {i : Nat}, lastIdxOf c l = some i → i < l.length := by
  intro l
  induction l with
  | nil => intro i h; simp [lastIdxOf] at h
  | cons a as ih =>
    intro i h
    rw [lastIdxOf] at h
    cases haux : lastIdxOf c as with
    | some j =>
      rw [haux] at h
      cases h
      exact Nat.succ_lt_succ (ih haux)
    | none =>
      rw [haux] at h
      by_cases hac : a = c
      · simp [hac] at h
        cases h
        exact Nat.succ_pos _
      · simp [hac] at h

theorem lastIdx_getD_lt {c : Char} {l : List Char} (hl : l ≠ []) :
    (lastIdxOf c l).getD 0 < l.length := by
  cases h : lastIdxOf c l with
  | some i => simpa [h] using lastIdxOf_lt_length h
  | none => simpa [h] using List.length_pos.mpr hl

theorem truncate_of_le {l : List Char} (h : l.length ≤ max_section_chars) :
    truncate l = l := by
  unfold truncate
  rw [if_pos h]

theorem implode_single (sep x : List Char) : implode sep [x] = x := by
  simp [implode, List.intercalate]

theorem implode_pair (x y : List Char) :
    implode ['\n'] [x, y] = x ++ '\n' :: y := by
  simp [implode, List.intercalate]

/-! ## Claim C3: the truncation rule -/

/-- Claim C3: for a body of length at most the soft cap C = 1000 the
truncation is the identity; the result never exceeds C plus the length
of the ellipsis marker; and for longer bodies the function breaks after
the later of the last `.` and the last newline of the first-C-character
window when that position is past 50% of C, and otherwise hard-cuts at
C and appends the ellipsis. -/
theorem truncate_correct (text : List Char) :
    (text.length ≤ max_section_chars → truncate text = text) ∧
    (truncate text).length ≤ max_section_chars + ("...".data).length ∧
    (max_section_chars < text.length →
      (max_section_chars / 2 <
          max ((lastIdxOf '.' (text.take max_section_chars)).getD 0)
            ((lastIdxOf '\n' (text.take max_section_chars)).getD 0) →
        truncate text = text.take
          (max ((lastIdxOf '.' (text.take max_section_chars)).getD 0)
            ((lastIdxOf '\n' (text.take max_section_chars)).getD 0) + 1)) ∧
      (max ((lastIdxOf '.' (text.take max_section_chars)).getD 0)
          ((lastIdxOf '\n' (text.take max_section_chars)).getD 0)
            ≤ max_section_chars / 2 →
        truncate text = text.take max_section_chars ++ "...".data)) := by
  by_cases hle : text.length ≤ max_section_chars
  · refine ⟨fun _ => truncate_of_le hle, ?_, fun hgt => absurd hgt (by omega)⟩
    rw [truncate_of_le hle]
    simp only [List.length_cons]
    omega
  · push_neg at hle
    have hcutlen : (text.take max_section_chars).length = max_section_chars := by
      simp [List.length_take]
      omega
    have hcutne : text.take max_section_chars ≠ [] := by
      intro h
      rw [h] at hcutlen
      simp [max_section_chars] at hcutlen
    have hbound : max ((lastIdxOf '.' (text.take max_section_chars)).getD 0)
        ((lastIdxOf '\n' (text.take max_section_chars)).getD 0)
          < max_section_chars := by
      have h1 := lastIdx_getD_lt (c := '.') hcutne
      have h2 := lastIdx_getD_lt (c := '\n') hcutne
      rw [hcutlen] at h1 h2
      omega
    refine ⟨fun h => absurd h (by omega), ?_, fun _ => ⟨?_, ?_⟩⟩
    · unfold truncate
      rw [if_neg (by omega)]
      by_cases hbr : max_section_chars / 2 <
          max ((lastIdxOf '.' (text.take max_section_chars)).getD 0)
            ((lastIdxOf '\n' (text.take max_section_chars)).getD 0)
      · rw [if_pos hbr]
        simp only [List.length_take]
        omega
      · rw [if_neg hbr]
        simp only [List.length_append, hcutlen]
        omega
    · intro hbr
      unfold truncate
      rw [if_neg (by omega), if_pos hbr]
    · intro hbr
      unfold truncate
      rw [if_neg (by omega), if_neg (by omega)]

theorem truncate_correct_witness :
    ("abc".data.length ≤ max_section_chars) ∧
      truncate ("abc".data) = "abc".data :=
  ⟨by decide, (truncate_correct ("abc".data)).1 (by decide)⟩

/-! ## Claim C2: the heading-likeness predicate -/

/-- Claim C2 (amended): with PHP operator precedence, a trimmed line is
heading-like iff either (a) it satisfies all of the length, punctuation
and bullet conditions AND is entirely upper-case, or (b) it matches the
title-case word pattern — the title-case alternative bypasses the
length, punctuation and bullet conditions. -/
theorem is_heading_characterization (t : List Char) :
    is_heading t = true ↔
      ((3 < t.length ∧ t.length < 80 ∧ endsPunct t = false
          ∧ t.head? ≠ some '-' ∧ t.head? ≠ some '•'
          ∧ phpAllCaps t = true)
        ∨ titleCaseMatch t = true) := by
  simp [is_heading, and_assoc]

/-- Claim C2 (counterexample): the two-character title-case line `Ab`
fails the length condition `3 < length(L)` yet the code classifies it
as heading-like, so the claimed conjunction (length AND punctuation AND
bullet AND (upper-case OR title-case)) does not characterise the
predicate. -/
theorem is_heading_len_counterexample :
    is_heading ("Ab".data) = true ∧ ¬(3 < ("Ab".data).length) := by
  decide

/-! ## Claims C5 / C6: the segmenter -/

/-- The line sequence "heading, body-line, heading, body-line, …". -/
def pairLines : List (List Char × List Char) → List (List Char)
  | [] => []
  | (h, b) :: ps => h :: b :: pairLines ps

/-- Hypotheses on one heading/body line pair: the heading line is
heading-like, the body line is not, both are single trimmed lines, and
the body line is longer than the 30-character emission floor but within
the soft cap. -/
def goodPair (p : List Char × List Char) : Bool :=
  is_heading p.1 && !is_heading p.2
    && decide (phpTrim p.1 = p.1) && decide (phpTrim p.2 = p.2)
    && decide ('\n' ∉ p.1) && decide ('\n' ∉ p.2)
    && decide (30 < p.2.length) && decide (p.2.length ≤ max_section_chars)

/-- The sections the loop emits while scanning `pairLines ps` from a
state whose pending section has title `t` and (joined, trimmed) body
`b`. -/
def chainSecs (t b : List Char) : List (List Char × List Char) → List (List Char)
  | [] => []
  | (h, b2) :: ps => mkSection t b :: chainSecs h b2 ps

/-- The pending (title, body) after scanning `pairLines ps` from a
state with pending title `t` and body `b`. -/
def chainLast (t b : List Char) : List (List Char × List Char) → List Char × List Char
  | [] => (t, b)
  | (h, b2) :: ps => chainLast h b2 ps

theorem chainLast_cases :
    ∀ (ps : List (List Char × List Char)) (t b : List Char),
      chainLast t b ps = (t, b) ∨ chainLast t b ps ∈ ps := by
  intro ps
  induction ps with
  | nil => intro t b; left; rfl
  | cons p rest ih =>
    intro t b
    rcases p with ⟨h, b2⟩
    rcases ih h b2 with hc | hc
    · right
      rw [chainLast, hc]
      exact List.mem_cons_self _ _
    · right
      rw [chainLast]
      exact List.mem_cons_of_mem _ hc

theorem chain_complete :
    ∀ (ps : List (List Char × List Char)) (t b : List Char),
      chainSecs t b ps
          ++ [mkSection (chainLast t b ps).1 (chainLast t b ps).2]
        = mkSection t b :: ps.map (fun p => mkSection p.1 p.2) := by
  intro ps
  induction ps with
  | nil => intro t b; rfl
  | cons p rest ih =>
    intro t b
    rcases p with ⟨h, b2⟩
    simp only [chainSecs, chainLast, List.map_cons, List.cons_append, ih h b2]

theorem pairLines_mem :
    ∀ (ps : List (List Char × List Char)) (l : List Char),
      l ∈ pairLines ps → ∃ p ∈ ps, l = p.1 ∨ l = p.2 := by
  intro ps
  induction ps with
  | nil => intro l h; simp [pairLines] at h
  | cons p rest ih =>
    intro l hmem
    rcases p with ⟨a, b⟩
    simp only [pairLines, List.mem_cons] at hmem
    rcases hmem with h1 | h1 | hmem
    · exact ⟨(a, b), List.mem_cons_self _ _, Or.inl h1⟩
    · exact ⟨(a, b), List.mem_cons_self _ _, Or.inr h1⟩
    · obtain ⟨q, hq, hl⟩ := ih l hmem
      exact ⟨q, List.mem_cons_of_mem _ hq, hl⟩

theorem goodPair_fields {h b : List Char} (hg : goodPair (h, b) = true) :
    is_heading h = true ∧ is_heading b = false
      ∧ phpTrim h = h ∧ phpTrim b = b
      ∧ '\n' ∉ h ∧ '\n' ∉ b
      ∧ 30 < b.length ∧ b.length ≤ max_section_chars := by
  simp only [goodPair, Bool.and_eq_true, Bool.not_eq_true',
    decide_eq_true_eq] at hg
  tauto

/-- Closing a state whose body is the single trimmed line `b` (with
`30 < |b| ≤ cap`) emits exactly one new section. -/
theorem closeSection_single {secs : List (List Char)} {t b : List Char}
    (hb : phpTrim b = b) (hlen : 30 < b.length)
    (hcap : b.length ≤ max_section_chars) :
    closeSection ⟨secs, t, [b]⟩ = secs ++ [mkSection t b] := by
  unfold closeSection
  simp only [implode_single, hb, truncate_of_le hcap]
  rw [if_pos hlen]

theorem segFold_chain :
    ∀ (ps : List (List Char × List Char)) (secs : List (List Char))
      (t b : List Char),
      phpTrim b = b → 30 < b.length → b.length ≤ max_section_chars →
      (∀ p ∈ ps, goodPair p = true) →
      (pairLines ps).foldl segStep ⟨secs, t, [b]⟩
        = ⟨secs ++ chainSecs t b ps, (chainLast t b ps).1,
            [(chainLast t b ps).2]⟩ := by
  intro ps
  induction ps with
  | nil =>
    intro secs t b _ _ _ _
    simp [pairLines, chainSecs, chainLast]
  | cons p rest ih =>
    intro secs t b hb hlen hcap hps
    rcases p with ⟨h, b2⟩
    obtain ⟨hh1, hh2, hh3, hh4, _, _, hh7, hh8⟩ :=
      goodPair_fields (hps (h, b2) (List.mem_cons_self _ _))
    have hstep1 : segStep ⟨secs, t, [b]⟩ h
        = ⟨secs ++ [mkSection t b], h, []⟩ := by
      unfold segStep
      simp only [hh3, hh1, List.isEmpty_cons, Bool.not_false, Bool.and_true,
        if_pos]
      rw [closeSection_single hb hlen hcap]
    have hstep2 : segStep ⟨secs ++ [mkSection t b], h, []⟩ b2
        = ⟨secs ++ [mkSection t b], h, [b2]⟩ := by
      unfold segStep
      simp [hh4, hh2]
    rw [pairLines, List.foldl_cons, List.foldl_cons, hstep1, hstep2,
      ih _ h b2 hh4 hh7 hh8 (fun q hq => hps q (List.mem_cons_of_mem _ hq))]
    simp [chainSecs, chainLast, List.append_assoc]

/-- Claim C5 (amended): (1) the scan closes a section only when a
heading-like line is seen while the accumulated body is non-empty, and
the closed section is emitted only when its truncated body exceeds 30
characters; (2) for prose consisting of N heading-like lines each
followed by a (>30-character) body line, the segmenter produces exactly
N sections in source order, but the FIRST section is titled by the
fallback page title and absorbs the first heading-like line at the
start of its body, while the k-th section (k ≥ 2) is titled by the k-th
heading-like line. -/
theorem split_into_sections_headed :
    (∀ (st : SegState) (line : List Char),
        (segStep st line).sections ≠ st.sections →
        is_heading (phpTrim line) = true ∧ st.body ≠ [] ∧
          30 < (truncate (phpTrim (implode ['\n'] st.body))).length ∧
          (segStep st line).sections
            = st.sections ++ [mkSection st.title
                (truncate (phpTrim (implode ['\n'] st.body)))]) ∧
    (∀ (fallback h0 b0 : List Char) (ps : List (List Char × List Char)),
        goodPair (h0, b0) = true →
        (∀ p ∈ ps, goodPair p = true) →
        phpTrim (h0 ++ '\n' :: b0) = h0 ++ '\n' :: b0 →
        (h0 ++ '\n' :: b0).length ≤ max_section_chars →
        split_into_sections (implode ['\n'] (pairLines ((h0, b0) :: ps)))
            fallback
          = mkSection fallback (h0 ++ '\n' :: b0)
              :: ps.map (fun p => mkSection p.1 p.2)) := by
  constructor
  · intro st line hne
    unfold segStep at hne ⊢
    by_cases hcond : (is_heading (phpTrim line) && !st.body.isEmpty) = true
    · rw [if_pos hcond] at hne ⊢
      simp only [Bool.and_eq_true, Bool.not_eq_true'] at hcond
      unfold closeSection at hne ⊢
      by_cases hemit :
          30 < (truncate (phpTrim (implode ['\n'] st.body))).length
      · rw [if_pos hemit] at hne ⊢
        refine ⟨hcond.1, ?_, hemit, rfl⟩
        intro hb
        rw [hb] at hcond
        simp at hcond
      · rw [if_neg hemit] at hne
        exact absurd rfl hne
    · rw [if_neg hcond] at hne
      exact absurd rfl hne
  · intro fallback h0 b0 ps hg hps htrim hcap
    obtain ⟨hg1, hg2, hg3, hg4, hg5, hg6, hg7, hg8⟩ := goodPair_fields hg
    have hlen30 : 30 < (h0 ++ '\n' :: b0).length := by
      simp only [List.length_append, List.length_cons]
      omega
    have hlines : explode '\n' (implode ['\n'] (pairLines ((h0, b0) :: ps)))
        = pairLines ((h0, b0) :: ps) := by
      apply List.splitOn_intercalate
      · intro l hl
        obtain ⟨p, hp, hlp⟩ := pairLines_mem _ l hl
        rcases List.mem_cons.mp hp with h | h
        · rw [h] at hlp
          rcases hlp with h1 | h1 <;> rw [h1]
          · exact hg5
          · exact hg6
        · obtain ⟨_, _, _, _, q5, q6, _, _⟩ := goodPair_fields
            (by rw [show p = (p.1, p.2) from rfl] at h; exact hps _ h)
          rcases hlp with h1 | h1 <;> rw [h1]
          · exact q5
          · exact q6
      · simp [pairLines]
    have hstep1 : segStep ⟨[], fallback, []⟩ h0 = ⟨[], fallback, [h0]⟩ := by
      simp [segStep]
    have hstep2 : segStep ⟨[], fallback, [h0]⟩ b0
        = ⟨[], fallback, [h0, b0]⟩ := by
      unfold segStep
      simp [hg4, hg2]
    have hcloseJ0 : closeSection ⟨[], fallback, [h0, b0]⟩
        = [mkSection fallback (h0 ++ '\n' :: b0)] := by
      unfold closeSection
      rw [implode_pair, htrim, truncate_of_le hcap, if_pos hlen30]
      simp
    unfold split_into_sections
    rw [hlines]
    cases ps with
    | nil =>
      simp only [pairLines, List.foldl_cons, List.foldl_nil, hstep1, hstep2,
        hcloseJ0, List.map_nil]
      rfl
    | cons p rest =>
      rcases p with ⟨h1, b1⟩
      obtain ⟨hp1, hp2, hp3, hp4, hp5, hp6, hp7, hp8⟩ :=
        goodPair_fields (hps (h1, b1) (List.mem_cons_self _ _))
      have hstep3 : segStep ⟨[], fallback, [h0, b0]⟩ h1
          = ⟨[mkSection fallback (h0 ++ '\n' :: b0)], h1, []⟩ := by
        unfold segStep
        rw [hp3, if_pos (by simp [hp1]), hcloseJ0]
      have hstep4 :
          segStep ⟨[mkSection fallback (h0 ++ '\n' :: b0)], h1, []⟩ b1
            = ⟨[mkSection fallback (h0 ++ '\n' :: b0)], h1, [b1]⟩ := by
        unfold segStep
        simp [hp4, hp2]
      have hrest : ∀ p ∈ rest, goodPair p = true :=
        fun q hq => hps q (List.mem_cons_of_mem _ hq)
      have hcl : phpTrim (chainLast h1 b1 rest).2 = (chainLast h1 b1 rest).2
          ∧ 30 < (chainLast h1 b1 rest).2.length
          ∧ (chainLast h1 b1 rest).2.length ≤ max_section_chars := by
        rcases chainLast_cases rest h1 b1 with hc | hc
        · rw [hc]
          exact ⟨hp4, hp7, hp8⟩
        · obtain ⟨_, _, _, q4, _, _, q7, q8⟩ := goodPair_fields
            (by rw [show chainLast h1 b1 rest
                = ((chainLast h1 b1 rest).1, (chainLast h1 b1 rest).2)
              from rfl] at hc; exact hrest _ hc)
          exact ⟨q4, q7, q8⟩
      simp only [pairLines, List.foldl_cons, hstep1, hstep2, hstep3, hstep4]
      rw [segFold_chain rest _ h1 b1 hp4 hp7 hp8 hrest,
        closeSection_single hcl.1 hcl.2.1 hcl.2.2]
      have hfinal : [mkSection fallback (h0 ++ '\n' :: b0)]
            ++ chainSecs h1 b1 rest
            ++ [mkSection (chainLast h1 b1 rest).1 (chainLast h1 b1 rest).2]
          = mkSection fallback (h0 ++ '\n' :: b0)
              :: ((h1, b1) :: rest).map (fun p => mkSection p.1 p.2) := by
        rw [List.append_assoc, chain_complete rest h1 b1]
        simp
      rw [hfinal]
      simp

theorem split_into_sections_headed_witness :
    goodPair (("Intro Title".data),
        ("this is the first body line with over thirty characters.".data))
        = true ∧
    split_into_sections
        (implode ['\n'] (pairLines
          [(("Intro Title".data),
            ("this is the first body line with over thirty characters.".data)),
           (("Second Part".data),
            ("another body line that also has more than thirty characters.".data))]))
        ("Fallback".data)
      = mkSection ("Fallback".data)
          (("Intro Title".data) ++ '\n'
            :: ("this is the first body line with over thirty characters.".data))
        :: [(("Second Part".data),
             ("another body line that also has more than thirty characters.".data))].map
            (fun p => mkSection p.1 p.2) :=
  ⟨by decide,
   split_into_sections_headed.2 ("Fallback".data) _ _ _
     (by decide) (by decide) (by decide) (by decide)⟩

/-- Claim C5 (counterexample): prose consisting of one heading-like
line followed by one body line of more than 30 characters (N = 1)
produces one section titled by the FALLBACK title, with the heading
line inside its body — not a section titled by its preceding
heading-like line as the claim states. -/
theorem split_first_heading_counterexample :
    is_heading (phpTrim ("My Heading".data)) = true ∧
    is_heading (phpTrim
        ("this body line has well over thirty characters in total.".data))
      = false ∧
    30 < ("this body line has well over thirty characters in total.".data).length ∧
    split_into_sections
        ("My Heading\nthis body line has well over thirty characters in total.".data)
        ("Fallback".data)
      = [mkSection ("Fallback".data)
          ("My Heading\nthis body line has well over thirty characters in total.".data)] ∧
    ("Fallback".data) ≠ ("My Heading".data) := by
  decide

theorem segFold_no_heading :
    ∀ (lines : List (List Char)) (secs : List (List Char)) (t : List Char)
      (body : List (List Char)),
      (∀ l ∈ lines, is_heading (phpTrim l) = false) →
      lines.foldl segStep ⟨secs, t, body⟩ = ⟨secs, t, body ++ lines⟩ := by
  intro lines
  induction lines with
  | nil => intro secs t body _; simp
  | cons l rest ih =>
    intro secs t body hnh
    have hstep : segStep ⟨secs, t, body⟩ l = ⟨secs, t, body ++ [l]⟩ := by
      simp [segStep, hnh l (List.mem_cons_self _ _)]
    rw [List.foldl_cons, hstep,
      ih secs t (body ++ [l]) (fun x hx => hnh x (List.mem_cons_of_mem _ hx))]
    simp

/-- Claim C6: for a (trimmed) prose block none of whose lines is
heading-like, the segmenter emits exactly one section titled by the
fallback title and containing the truncated full text. -/
theorem split_single_block (content title : List Char)
    (hnh : ∀ l ∈ explode '\n' content, is_heading (phpTrim l) = false)
    (ht : phpTrim content = content) :
    split_into_sections content title
      = [mkSection title (truncate content)] := by
  have hfold := segFold_no_heading (explode '\n' content) [] title [] hnh
  have hjoin : implode ['\n'] (explode '\n' content) = content := by
    simp only [implode, explode]
    exact List.intercalate_splitOn content '\n'
  unfold split_into_sections
  simp only [hfold]
  unfold closeSection
  simp only [List.nil_append, hjoin, ht]
  by_cases hemit : 30 < (truncate content).length
  · rw [if_pos hemit]
    simp
  · rw [if_neg hemit]
    simp

theorem split_single_block_witness :
    (∀ l ∈ explode '\n'
        ("just some plain prose without any heading lines here.".data),
      is_heading (phpTrim l) = false) ∧
    split_into_sections
        ("just some plain prose without any heading lines here.".data)
        ("Page Title".data)
      = [mkSection ("Page Title".data)
          (truncate ("just some plain prose without any heading lines here.".data))] :=
  ⟨by decide,
   split_single_block _ ("Page Title".data) (by decide) (by decide)⟩

/-! ## Claim C4: the 160/157 description cap -/

/-- Claim C4: both the site-wide header (`build_header`) and the
per-page header of `build_page_context` emit the derived description
unchanged when it has at most 160 characters, and otherwise emit
exactly its first 157 characters followed by `...`. -/
theorem header_desc_cap (env : SiteEnv) (post : Post) :
    (160 < (site_desc env).length →
      build_header env = "# ".data ++ site_name env ++ "\n> ".data
        ++ ((site_desc env).take 157 ++ "...".data)) ∧
    ((site_desc env).length ≤ 160 →
      build_header env = "# ".data ++ site_name env ++ "\n> ".data
        ++ site_desc env) ∧
    (160 < (page_desc env post).length →
      page_header env post = "# ".data ++ post.post_title ++ "\n> ".data
        ++ ((page_desc env post).take 157 ++ "...".data)) ∧
    ((page_desc env post).length ≤ 160 →
      page_header env post = "# ".data ++ post.post_title ++ "\n> ".data
        ++ page_desc env post) := by
  refine ⟨fun h => ?_, fun h => ?_, fun h => ?_, fun h => ?_⟩
  · unfold build_header cap160
    rw [if_pos h]
  · unfold build_header cap160
    rw [if_neg (by omega)]
  · unfold page_header cap160
    rw [if_pos h]
  · unfold page_header cap160
    rw [if_neg (by omega)]

/-- A plain-text description of more than 160 characters. -/
def longDesc : List Char :=
  ("This description is deliberately written to be much longer than one "
    ++ "hundred and sixty characters so that the one-hundred-and-sixty "
    ++ "character ceiling of the header builder truly applies here.").data

/-- An environment whose site description exceeds 160 characters. -/
def envLongDesc : SiteEnv :=
  { defEnv with blog_description := longDesc }

/-- A published page whose excerpt exceeds 160 characters. -/
def postLongExcerpt : Post :=
  { id := 1, post_type := "page".data, post_name := "about".data,
    post_title := "About".data, post_excerpt := longDesc,
    post_content := [], post_parent := 0,
    post_status := "publish".data }

theorem header_desc_cap_witness :
    (160 < (site_desc envLongDesc).length ∧
      build_header envLongDesc
        = "# ".data ++ site_name envLongDesc ++ "\n> ".data
            ++ ((site_desc envLongDesc).take 157 ++ "...".data)) ∧
    (160 < (page_desc envLongDesc postLongExcerpt).length ∧
      page_header envLongDesc postLongExcerpt
        = "# ".data ++ postLongExcerpt.post_title ++ "\n> ".data
            ++ ((page_desc envLongDesc postLongExcerpt).take 157
                ++ "...".data)) :=
  ⟨⟨by decide, (header_desc_cap envLongDesc postLongExcerpt).1 (by decide)⟩,
   ⟨by decide,
    (header_desc_cap envLongDesc postLongExcerpt).2.2.1 (by decide)⟩⟩

/-! ## Claim C1: the 500 KB ceiling -/

theorem phpBytes_append (a b : List Char) :
    phpBytes (a ++ b) = phpBytes a ++ phpBytes b := by
  simp [phpBytes]

theorem phpTruthy_of {x : List Char} (h1 : x ≠ []) (h2 : x ≠ ['0']) :
    phpTruthy x = true := by
  simp [phpTruthy, h1, h2]

theorem implode_cons2 (sep x y : List Char) (ys : List (List Char)) :
    implode sep (x :: y :: ys) = x ++ sep ++ implode sep (y :: ys) := by
  simp [implode, List.intercalate]

theorem phpBytes_implode_cons_ge (sep x : List Char)
    (rest : List (List Char)) :
    (phpBytes x).length ≤ (phpBytes (implode sep (x :: rest))).length := by
  cases rest with
  | nil => rw [implode_single]
  | cons y ys =>
    rw [implode_cons2, phpBytes_append, phpBytes_append]
    simp

/-- Claim C1 (amended, part 1): single page/post/product documents
built by `build_page_context` are clipped to at most `500*1024` bytes —
the oversized document is truncated, never rejected. -/
theorem build_page_context_size (env : SiteEnv) (post : Post) :
    (build_page_context env post).length ≤ max_total_bytes := by
  unfold build_page_context
  by_cases h : max_total_bytes < (phpBytes (implode ("\n\n".data)
      (php_array_filter (build_page_context_parts env post)))).length
  · simp only [if_pos h, List.length_take]
    omega
  · simp only [if_neg h]
    exact Nat.le_of_not_lt h

/-- An environment whose configured site name alone is 600000
characters — far beyond the 500 KB ceiling. -/
def bigEnv : SiteEnv :=
  { defEnv with
      settings :=
        { emptySettings with site_name := some (List.replicate 600000 'a') } }

theorem length_phpBytes_replicate_a (n : Nat) :
    (phpBytes (List.replicate n 'a')).length = n := by
  have hc : charUtf8 'a' = [97] := by decide
  simp [phpBytes, List.map_replicate, hc, List.length_flatten,
    List.sum_replicate]

/-- Claim C1 (counterexample): `generate_index` applies no size
ceiling — with a 600000-character configured site name the compiled
index document exceeds `500*1024` bytes, refuting the claim that every
compiled document is at most `500*1024` bytes. -/
theorem generate_index_exceeds_ceiling :
    max_total_bytes < (phpBytes (generate_index bigEnv)).length := by
  have hname : site_name bigEnv = List.replicate 600000 'a' := rfl
  have hheader : build_header bigEnv
      = "# ".data ++ List.replicate 600000 'a'
        ++ "\n> ".data ++ cap160 (site_desc bigEnv) := by
    unfold build_header
    rw [hname]
  have hlenheader : 600000 ≤ (build_header bigEnv).length := by
    rw [hheader]
    simp only [List.length_append, List.length_replicate]
    omega
  have h1 : build_header bigEnv ≠ [] := by
    intro h
    rw [h] at hlenheader
    simp only [List.length_nil] at hlenheader
    omega
  have h2 : build_header bigEnv ≠ ['0'] := by
    intro h
    rw [h] at hlenheader
    simp only [List.length_cons, List.length_nil] at hlenheader
    omega
  have hform : generate_index bigEnv
      = implode ("\n\n".data) (build_header bigEnv
          :: php_array_filter [build_metadata bigEnv, build_sitemap bigEnv]) := by
    unfold generate_index php_array_filter
    rw [List.filter_cons_of_pos (phpTruthy_of h1 h2)]
  have hb1 : (phpBytes (build_header bigEnv)).length
      ≤ (phpBytes (generate_index bigEnv)).length := by
    rw [hform]
    exact phpBytes_implode_cons_ge _ _ _
  have hb2 : 600000 ≤ (phpBytes (build_header bigEnv)).length := by
    rw [hheader]
    simp only [phpBytes_append, List.length_append,
      length_phpBytes_replicate_a]
    omega
  unfold max_total_bytes
  omega

/-! ## Claim C10: the exclusion list -/

theorem entries_for_type_eq_filter (env : SiteEnv) (pt : PostType) :
    ∀ l : List Post, entries_for_type env pt l
      = (l.filter (fun p => !is_excluded p)).map (mk_post_entry env pt) := by
  intro l
  induction l with
  | nil => rfl
  | cons p ps ih =>
    by_cases h : is_excluded p = true
    · simp [entries_for_type, h, List.filter_cons, ih]
    · simp only [Bool.not_eq_true] at h
      simp [entries_for_type, h, List.filter_cons, ih]

/-- Claim C10: sitemap entry discovery filters out every post whose
slug is on the fixed exclusion list (`is_excluded` is exactly
membership of the slug in that list); the remaining post entries and
the WooCommerce category entries are kept. -/
theorem discover_excludes (env : SiteEnv) :
    (discover_all_entries env
      = ((env.public_post_types.filter (fun pt =>
            !(pt.name == "attachment".data))).map (fun pt =>
            ((posts_for_type env pt).filter (fun p => !is_excluded p)).map
              (mk_post_entry env pt))).flatten
        ++ (if env.wc_active then (cats_for_index env).map (mk_cat_entry env)
            else [])) ∧
    (∀ p : Post, is_excluded p = true ↔
      p.post_name ∈ (["cart", "checkout", "my-account", "account", "login",
        "register", "privacy-policy", "cookie-policy",
        "terms-and-conditions", "sample-page", "hello-world", "feed",
        "wp-json"].map String.data)) := by
  constructor
  · unfold discover_all_entries
    simp only [entries_for_type_eq_filter]
  · intro p
    show exclude_slugs.contains p.post_name = true ↔ _
    simp [exclude_slugs, List.elem_eq_mem]

/-! ## Claim C9: sitemap description lengths -/

/-- Claim C9 (amended): a sitemap description derived from the post
body is at most 123 characters (120 characters plus the 3-character
ellipsis appended when the body is longer); a category description
taken from the term's description field is capped at 120 characters;
but a description taken from an explicit post excerpt is the cleaned
excerpt with no length cap at all. -/
theorem sitemap_desc_bounds :
    (∀ (env : SiteEnv) (p : Post), phpTruthy p.post_excerpt = false →
        (post_entry_desc env p).length ≤ 123) ∧
    (∀ (env : SiteEnv) (c : TaxTerm), phpTruthy c.description = true →
        (cat_entry_desc env c).length ≤ 120) := by
  constructor
  · intro env p h
    unfold post_entry_desc
    simp only [h, Bool.false_eq_true, if_false]
    by_cases h2 : phpTruthy (clean_text env p.post_content) = true
    · simp only [h2, if_true]
      by_cases h3 : 120 < (clean_text env p.post_content).length
      · simp only [h3, if_true, List.length_map, List.length_append,
          List.length_take]
        simp only [List.length_cons, List.length_nil]
        omega
      · simp only [h3, if_false, List.length_map, List.length_take]
        omega
    · simp only [h2, Bool.false_eq_true, if_false, List.length_nil]
      omega
  · intro env c h
    unfold cat_entry_desc
    simp only [h, if_true, List.length_take]
    omega

/-- A post with no excerpt (its description is derived from the body). -/
def postNoExcerpt : Post :=
  { id := 2, post_type := "post".data, post_name := "hello".data,
    post_title := "Hello".data, post_excerpt := [],
    post_content := "Some body text for the description.".data,
    post_parent := 0, post_status := "publish".data }

theorem sitemap_desc_bounds_witness :
    phpTruthy postNoExcerpt.post_excerpt = false ∧
      (post_entry_desc defEnv postNoExcerpt).length ≤ 123 :=
  ⟨by decide, sitemap_desc_bounds.1 defEnv postNoExcerpt (by decide)⟩

/-- An excerpt of more than 120 plain-text characters. -/
def excerpt130 : List Char :=
  ("This excerpt is deliberately longer than one hundred and twenty "
    ++ "characters so the sitemap one-line description keeps every one "
    ++ "of them intact.").data

/-- One published page carrying `excerpt130`, in an otherwise empty
site. -/
def envC9 : SiteEnv :=
  { defEnv with
      public_post_types :=
        [{ name := "page".data, labels_name := some ("Pages".data) }]
      posts :=
        [{ id := 3, post_type := "page".data, post_name := "services".data,
           post_title := "Services".data, post_excerpt := excerpt130,
           post_content := [], post_parent := 0,
           post_status := "publish".data }] }

/-- Claim C9 (counterexample): an explicit excerpt longer than 120
characters is carried into the sitemap entry uncapped, so the derived
one-line description exceeds 120 characters. -/
theorem sitemap_desc_exceeds_120 :
    ∃ e ∈ discover_all_entries envC9, 120 < e.description.length := by
  decide

/-! ## Claim C8: the Product Details block -/

/-- A product priced 29.99 USD, in stock, with no SKU. -/
def prodC8 : WCProduct :=
  { sku := [], price := "29.99".data, regular_price := [],
    sale_price := [], on_sale := false, in_stock := true,
    stock_quantity := none, weight := [], dimensions := [],
    permalink := "https://example.com/product/widget".data,
    image_id := 0, variable_type := false, upsell_ids := [],
    cross_sell_ids := [], status := "publish".data,
    name := "Widget".data, slug := "widget".data, attributes := [] }

/-- An environment whose product 7 is `prodC8`. -/
def envC8 : SiteEnv :=
  { defEnv with
      wc_active := true
      wc_products := fun i => if i = 7 then some prodC8 else none }

/-- Claim C8: the Product Details block always opens with a non-empty
`PRODUCT_ID` line (the SKU when truthy, otherwise the synthesized
`wc-{id}`), and the concrete product with price 29.99, currency USD, in
stock and no SKU yields the lines `PRICE: 29.99`, `CURRENCY: USD`,
`STOCK_STATUS: in_stock` and the synthesized `PRODUCT_ID: wc-7`. -/
theorem product_details_block :
    (∀ (env : SiteEnv) (product_id : Nat) (product : WCProduct),
        env.wc_products product_id = some product →
        (pce_detail_lines env product_id product).head?
            = some ("PRODUCT_ID: ".data ++ product_ident product_id product)
          ∧ product_ident product_id product ≠ []
          ∧ (build_product_sections env product_id).head?
              = some ("## section: Product Details\n\n".data
                  ++ implode ['\n'] (pce_detail_lines env product_id product))) ∧
    (("PRICE: 29.99".data) ∈ pce_detail_lines envC8 7 prodC8
      ∧ ("CURRENCY: USD".data) ∈ pce_detail_lines envC8 7 prodC8
      ∧ ("STOCK_STATUS: in_stock".data) ∈ pce_detail_lines envC8 7 prodC8
      ∧ ("PRODUCT_ID: wc-7".data) ∈ pce_detail_lines envC8 7 prodC8) := by
  constructor
  · intro env product_id product h
    refine ⟨rfl, ?_, ?_⟩
    · unfold product_ident
      by_cases hsku : phpTruthy product.sku = true
      · rw [if_pos hsku]
        intro he
        rw [he] at hsku
        simp [phpTruthy] at hsku
      · rw [if_neg hsku]
        simp
    · unfold build_product_sections
      rw [h]
      rfl
  · refine ⟨?_, ?_, ?_, ?_⟩ <;> decide

theorem product_details_block_witness :
    envC8.wc_products 7 = some prodC8 ∧
      (pce_detail_lines envC8 7 prodC8).head?
          = some ("PRODUCT_ID: ".data ++ product_ident 7 prodC8)
        ∧ product_ident 7 prodC8 ≠ [] :=
  ⟨rfl, (product_details_block.1 envC8 7 prodC8 rfl).1,
    (product_details_block.1 envC8 7 prodC8 rfl).2.1⟩

/-! ## Claim C7: `generate_page` absence -/

theorem splitOnP_append_sep (p : Char → Bool) (x : Char) (hx : p x = true)
    (a b : List Char) :
    (a ++ x :: b).splitOnP p = a.splitOnP p ++ b.splitOnP p := by
  induction a with
  | nil => simp [List.splitOnP_cons, hx, List.splitOnP_nil]
  | cons c cs ih =>
    simp only [List.cons_append, List.splitOnP_cons, ih]
    by_cases h : p c = true
    · simp [h]
    · simp only [h, Bool.false_eq_true, if_false]
      cases hcs : cs.splitOnP p with
      | nil => exact absurd hcs (List.splitOnP_ne_nil p cs)
      | cons w ws => simp [List.modifyHead]

theorem explode_append_sep (x : Char) (a b : List Char) :
    explode x (a ++ x :: b) = explode x a ++ explode x b := by
  unfold explode List.splitOn
  exact splitOnP_append_sep _ x (by simp) a b

theorem explode_no_sep {x : Char} {l : List Char} (h : x ∉ l) :
    explode x l = [l] := by
  unfold explode List.splitOn
  apply List.splitOnP_eq_single
  intro y hy
  simp only [beq_iff_eq]
  intro he
  rw [he] at hy
  exact h hy

theorem explode_last_getD {x : Char} {b : List Char} (a : List Char)
    (h : x ∉ b) :
    (explode x (a ++ x :: b)).getLast?.getD [] = b := by
  rw [explode_append_sep, explode_no_sep h]
  simp [List.getLast?_concat]

theorem resolve_type_parent (env : SiteEnv) (ty : List Char)
    (h : (resolve_type env ty).2 ≠ []) :
    resolve_type env ty = (some ("page".data), ty) := by
  unfold resolve_type at h ⊢
  by_cases h1 : ty = []
  · rw [if_pos h1] at h
    simp at h
  · rw [if_neg h1] at h ⊢
    cases hm : type_map_lookup ty with
    | some t => rw [hm] at h; simp at h
    | none =>
      rw [hm] at h
      cases hg : get_page_by_path env ty with
      | some pg => rfl
      | none =>
        rw [hg] at h
        by_cases he : env.post_type_exists ty = true
        · simp [he] at h
        · simp [he] at h

/-- A hit of the parent-path branch is a published page named by the
requested slug whose type is admitted by the slug query. -/
theorem via_path_mem (env : SiteEnv) (slug ty : List Char)
    (hslug : '/' ∉ slug) {pg : Post}
    (h : find_post_via_path env slug ty = some pg) :
    pg ∈ env.posts ∧ pg.post_name = slug
      ∧ pg.post_status = "publish".data
      ∧ pg.post_type ∈ allowed_types env (resolve_type env ty).1 := by
  unfold find_post_via_path at h
  by_cases hpar : (resolve_type env ty).2 ≠ []
  · rw [if_pos hpar] at h
    cases hg : get_page_by_path env ((resolve_type env ty).2 ++ '/' :: slug) with
    | none => rw [hg] at h; simp at h
    | some q =>
      rw [hg] at h
      by_cases hpub : (q.post_status == "publish".data) = true
      · have hq : q = pg := by simpa [hpub] using h
        subst hq
        unfold get_page_by_path at hg
        have hmem := List.mem_of_find?_eq_some hg
        have hpred := List.find?_some hg
        unfold page_path_pred at hpred
        simp only [Bool.and_eq_true, beq_iff_eq] at hpred
        obtain ⟨⟨htype, hname⟩, _⟩ := hpred
        refine ⟨hmem, ?_, by simpa using hpub, ?_⟩
        · rw [hname]
          exact explode_last_getD _ hslug
        · rw [resolve_type_parent env ty hpar]
          simp [allowed_types, htype]
      · simp only [hpub, Bool.false_eq_true, if_false] at h
        simp at h
  · rw [if_neg hpar] at h
    exact absurd h (by simp)

/-- Claim C7: outside manual mode, `generate_page` returns an absent
document exactly when the requested slug matches no published content —
for `/context/shop/{slug}.txt` with WooCommerce active, when no product
category carries the slug; otherwise, when no published post of an
admitted type carries the slug.  Whenever a match exists, a document is
returned (malformed or oversized content never yields `null`). -/
theorem generate_page_not_found (env : SiteEnv) (slug ty : List Char)
    (hmode : env.settings.mode.getD ("auto".data) ≠ "manual".data)
    (hslug : '/' ∉ slug) :
    (generate_page env slug ty = none ↔
      if ty = "shop".data ∧ env.wc_active = true then
        env.product_cats.find? (fun t => t.slug == slug) = none
      else
        ∀ p ∈ env.posts, ¬(p.post_name = slug
          ∧ p.post_status = "publish".data
          ∧ p.post_type ∈ allowed_types env (resolve_type env ty).1)) := by
  unfold generate_page
  rw [if_neg hmode]
  by_cases hshop : (decide (ty = "shop".data) && env.wc_active) = true
  · have hshopP : ty = "shop".data ∧ env.wc_active = true := by
      simpa [Bool.and_eq_true, decide_eq_true_eq] using hshop
    rw [if_pos hshop, if_pos hshopP]
    unfold build_category_context
    cases hf : env.product_cats.find? (fun t => t.slug == slug) with
    | none => simp
    | some term => simp
  · have hshopP : ¬(ty = "shop".data ∧ env.wc_active = true) := by
      intro hc
      exact hshop (by simp [hc.1, hc.2])
    rw [if_neg hshop, if_neg hshopP]
    constructor
    · intro h
      have hfp : find_post env slug ty = none := by
        cases hf : find_post env slug ty with
        | none => rfl
        | some p => rw [hf] at h; simp at h
      have hq : query_posts env slug
          (allowed_types env (resolve_type env ty).1) = [] := by
        unfold find_post at hfp
        cases hvp : find_post_via_path env slug ty with
        | some pg => rw [hvp] at hfp; simp at hfp
        | none =>
          rw [hvp] at hfp
          exact List.head?_eq_none_iff.mp hfp
      intro p hp hpred
      have hmemq : p ∈ query_posts env slug
          (allowed_types env (resolve_type env ty).1) := by
        unfold query_posts
        rw [List.mem_filter]
        refine ⟨hp, ?_⟩
        simp only [Bool.and_eq_true, beq_iff_eq, List.elem_eq_mem,
          decide_eq_true_eq]
        exact ⟨⟨hpred.1, hpred.2.1⟩, hpred.2.2⟩
      rw [hq] at hmemq
      simp at hmemq
    · intro hall
      have hq : query_posts env slug
          (allowed_types env (resolve_type env ty).1) = [] := by
        unfold query_posts
        rw [List.filter_eq_nil_iff]
        intro p hp hb
        apply hall p hp
        simp only [Bool.and_eq_true, beq_iff_eq, List.elem_eq_mem,
          decide_eq_true_eq] at hb
        exact ⟨hb.1.1, hb.1.2, hb.2⟩
      have hvp : find_post_via_path env slug ty = none := by
        cases hvp2 : find_post_via_path env slug ty with
        | none => rfl
        | some pg =>
          obtain ⟨hmem, h1, h2, h3⟩ := via_path_mem env slug ty hslug hvp2
          exact absurd ⟨h1, h2, h3⟩ (hall pg hmem)
      have hfp : find_post env slug ty = none := by
        unfold find_post
        rw [hvp, hq]
        rfl
      rw [hfp]

theorem generate_page_not_found_witness :
    generate_page defEnv ("about".data) [] = none ↔
      (if ([] : List Char) = "shop".data ∧ defEnv.wc_active = true then
        defEnv.product_cats.find? (fun t => t.slug == ("about".data)) = none
      else
        ∀ p ∈ defEnv.posts, ¬(p.post_name = ("about".data)
          ∧ p.post_status = "publish".data
          ∧ p.post_type ∈ allowed_types defEnv (resolve_type defEnv []).1)) :=
  generate_page_not_found defEnv ("about".data) [] (by decide) (by decide)
